import Mathlib

/-!
Verification of the ticket lifecycle and smart-assignment core of the
Ticketing backend.  The definitions below are a shallow embedding of
`TicketService.cs` and `SmartAssignmentService.cs`: the entity store is a
`Db` record of lists, Guids are modelled as `Nat`, `DateTime` as `Nat`,
and each service method becomes a pure function from the old store to the
new store plus its returned value.
-/

namespace Ticketing

/-- Ticket status enum (`TicketStatus` in `Domain.Enums`). -/
inductive TicketStatus
  | new
  | inProgress
  | waitingForClient
  | resolved
  | closed
deriving DecidableEq

/-- Ticket priority enum (`TicketPriority` in `Domain.Enums`). -/
inductive TicketPriority
  | low
  | medium
  | high
  | critical
deriving DecidableEq

/-- User role enum (`UserRole` in `Domain.Enums`). -/
inductive UserRole
  | client
  | technician
  | admin
deriving DecidableEq

/-- The `Ticket` entity.  Guids and DateTimes are `Nat`; nullable columns
are `Option`. -/
structure Ticket where
  id : Nat
  title : String
  description : String
  categoryId : Nat
  subcategoryId : Option Nat
  priority : TicketPriority
  status : TicketStatus
  createdByUserId : Nat
  technicianId : Option Nat
  assignedToUserId : Option Nat
  dueDate : Option Nat
  createdAt : Nat
  updatedAt : Option Nat
deriving DecidableEq

/-- The `Technician` entity (profile, distinct from the `User` account;
`userId` is the optional link to a `User`). -/
structure Technician where
  id : Nat
  fullName : String
  email : String
  phone : Option String
  department : Option String
  isActive : Bool
  createdAt : Nat
  userId : Option Nat
deriving DecidableEq

/-- The `User` entity (only the fields the ticket core reads). -/
structure User where
  id : Nat
  fullName : String
  email : String
  role : UserRole
deriving DecidableEq

/-- The `TicketMessage` entity. -/
structure TicketMessage where
  id : Nat
  ticketId : Nat
  authorUserId : Nat
  message : String
  createdAt : Nat
  status : Option TicketStatus
deriving DecidableEq

/-- The persisted store (`AppDbContext`): the four record sets the ticket
core touches. -/
structure Db where
  tickets : List Ticket
  technicians : List Technician
  users : List User
  messages : List TicketMessage
deriving DecidableEq

/-- `TicketCreateRequest` DTO. -/
structure TicketCreateRequest where
  title : String
  description : String
  categoryId : Nat
  subcategoryId : Option Nat
  priority : TicketPriority
deriving DecidableEq

/-- `TicketUpdateRequest` DTO: every field of the patch is optional. -/
structure TicketUpdateRequest where
  description : Option String
  priority : Option TicketPriority
  status : Option TicketStatus
  assignedToUserId : Option Nat
  dueDate : Option Nat
deriving DecidableEq

/-- Result of `AddMessageAsync`: `null` (not found / out of scope),
the `StatusChangeForbiddenException`, or the created message. -/
inductive AddMessageResult
  | notFound
  | forbidden
  | ok (m : TicketMessage)
deriving DecidableEq

/-- `_context.Tickets.FirstOrDefaultAsync(t => t.Id == id)`. -/
def findTicket (db : Db) (tid : Nat) : Option Ticket :=
  db.tickets.find? (fun t => t.id == tid)

/-- `_context.Users.FirstOrDefaultAsync(u => u.Id == id)`. -/
def findUser (db : Db) (uid : Nat) : Option User :=
  db.users.find? (fun u => u.id == uid)

/-- `_context.Technicians.FirstOrDefaultAsync(t => t.Id == id)`. -/
def findTechnician (db : Db) (tid : Nat) : Option Technician :=
  db.technicians.find? (fun t => t.id == tid)

/-- `SaveChangesAsync` after mutating one tracked ticket entity: the row
with the entity's primary key is overwritten (the first id match, which
is the row `FirstOrDefaultAsync` returned). -/
def replaceFirst : List Ticket → Ticket → List Ticket
  | [], _ => []
  | x :: xs, t' => if x.id = t'.id then t' :: xs else x :: replaceFirst xs t'

/-- `GetTicketAsync`: fetch plus role-based access scoping: a missing
ticket and an out-of-scope ticket both return `none`. -/
def getTicket (db : Db) (id uid : Nat) (role : UserRole) : Option Ticket :=
  match findTicket db id with
  | none => none
  | some t =>
    if role = UserRole.client ∧ t.createdByUserId ≠ uid then none
    else if role = UserRole.technician ∧ t.technicianId ≠ some uid ∧ t.assignedToUserId ≠ some uid then none
    else some t

/-- `CreateTicketAsync`: the new ticket is always `New` and unassigned;
`newId` models `Guid.NewGuid()` and `now` models `DateTime.UtcNow`. -/
def createTicket (db : Db) (uid : Nat) (req : TicketCreateRequest) (newId now : Nat) :
    Db × Ticket :=
  let t : Ticket :=
    { id := newId
      title := req.title
      description := req.description
      categoryId := req.categoryId
      subcategoryId := req.subcategoryId
      priority := req.priority
      status := TicketStatus.new
      createdByUserId := uid
      technicianId := none
      assignedToUserId := none
      dueDate := none
      createdAt := now
      updatedAt := none }
  ({ db with tickets := db.tickets ++ [t] }, t)

/-- The field-patch section of `UpdateTicketAsync`, applied to the loaded
ticket after the access checks passed. -/
def applyUpdate (ticket : Ticket) (role : UserRole) (req : TicketUpdateRequest) (now : Nat) :
    Ticket :=
  let t1 :=
    match req.description with
    | some d => if role ≠ UserRole.technician then { ticket with description := d } else ticket
    | none => ticket
  let t2 :=
    match req.priority with
    | some p => if role ≠ UserRole.technician then { t1 with priority := p } else t1
    | none => t1
  let t3 :=
    match req.status with
    | some s =>
      if role = UserRole.client then
        if s = TicketStatus.waitingForClient ∨ s = TicketStatus.closed then
          { t2 with status := s }
        else t2
      else { t2 with status := s }
    | none => t2
  let t4 :=
    if role = UserRole.admin then
      let ta :=
        match req.assignedToUserId with
        | some a => { t3 with assignedToUserId := some a }
        | none => t3
      { ta with dueDate := req.dueDate }
    else t3
  { t4 with updatedAt := some now }

/-- `UpdateTicketAsync`: access scoping, then the role-filtered patch. -/
def updateTicket (db : Db) (id uid : Nat) (role : UserRole) (req : TicketUpdateRequest)
    (now : Nat) : Db × Option Ticket :=
  match findTicket db id with
  | none => (db, none)
  | some ticket =>
    if role = UserRole.client ∧ ticket.createdByUserId ≠ uid then (db, none)
    else if role = UserRole.technician ∧ ticket.technicianId ≠ some uid ∧ ticket.assignedToUserId ≠ some uid then (db, none)
    else
      let t' := applyUpdate ticket role req now
      ({ db with tickets := replaceFirst db.tickets t' }, some t')

/-- `AssignTicketAsync` (the admin assign endpoint): sets `TechnicianId`,
`AssignedToUserId := technician.UserId` and `Status := InProgress` when
the technician exists and is active. -/
def assignTicket (db : Db) (id technicianId : Nat) (now : Nat) : Db × Option Ticket :=
  match findTicket db id with
  | none => (db, none)
  | some ticket =>
    match findTechnician db technicianId with
    | none => (db, none)
    | some technician =>
      if technician.isActive then
        let t' :=
          { ticket with
            technicianId := some technicianId
            assignedToUserId := technician.userId
            status := TicketStatus.inProgress
            updatedAt := some now }
        ({ db with tickets := replaceFirst db.tickets t' }, some t')
      else (db, none)

/-- The status-via-message permission rules of `AddMessageAsync`, for the
non-throwing cases: Client may reopen (`InProgress` from
`Resolved`/`Closed`) or set `WaitingForClient`; any other Client request
is silently ignored; Technician/Admin may set any status. -/
def applyMessageStatus (author : User) (ticket : Ticket) (status : Option TicketStatus) :
    Ticket :=
  match status with
  | none => ticket
  | some s =>
    if author.role = UserRole.client then
      if (s = TicketStatus.inProgress ∧
            (ticket.status = TicketStatus.resolved ∨ ticket.status = TicketStatus.closed))
          ∨ s = TicketStatus.waitingForClient then
        { ticket with status := s }
      else ticket
    else { ticket with status := s }

/-- `AddMessageAsync`: access scoping (author role read from the store),
the `StatusChangeForbiddenException` for a Client closing request, then
the status patch, `UpdatedAt` refresh, and the appended message whose
snapshot is `status ?? ticket.Status`. -/
def addMessage (db : Db) (ticketId authorId : Nat) (message : String)
    (status : Option TicketStatus) (now msgId : Nat) : Db × AddMessageResult :=
  match findTicket db ticketId with
  | none => (db, AddMessageResult.notFound)
  | some ticket =>
    match findUser db authorId with
    | none => (db, AddMessageResult.notFound)
    | some author =>
      if author.role = UserRole.client ∧ ticket.createdByUserId ≠ authorId then
        (db, AddMessageResult.notFound)
      else if author.role = UserRole.technician ∧ ticket.technicianId ≠ some authorId ∧ ticket.assignedToUserId ≠ some authorId then
        (db, AddMessageResult.notFound)
      else if author.role = UserRole.client ∧ (status = some TicketStatus.resolved ∨ status = some TicketStatus.closed) then
        (db, AddMessageResult.forbidden)
      else
        let t2 := { applyMessageStatus author ticket status with updatedAt := some now }
        let m : TicketMessage :=
          { id := msgId
            ticketId := ticketId
            authorUserId := authorId
            message := message
            createdAt := now
            status := some (status.getD t2.status) }
        ({ db with tickets := replaceFirst db.tickets t2, messages := db.messages ++ [m] },
         AddMessageResult.ok m)

/-- The candidate set of the assignment engine: active technicians with a
linked user account. -/
def eligibleTechnicians (db : Db) : List Technician :=
  db.technicians.filter (fun t => t.isActive && t.userId.isSome)

/-- A technician's load: open (`New`/`InProgress`) tickets assigned to
them. -/
def loadCount (db : Db) (techId : Nat) : Nat :=
  db.tickets.countP (fun t =>
    t.technicianId == some techId &&
      (decide (t.status = TicketStatus.new) || decide (t.status = TicketStatus.inProgress)))

/-- The `(TechnicianId, LoadCount)` list built by
`AssignTechnicianToTicketAsync`. -/
def technicianLoads (db : Db) : List (Nat × Nat) :=
  (eligibleTechnicians db).map (fun tech => (tech.id, loadCount db tech.id))

/-- One comparison step of `OrderBy(load).ThenBy(id).First()`: keep the
lexicographically smaller `(load, id)` pair, the earlier one on exact
ties (LINQ's sort is stable). -/
def pickMin (best cand : Nat × Nat) : Nat × Nat :=
  if cand.2 < best.2 ∨ (cand.2 = best.2 ∧ cand.1 < best.1) then cand else best

/-- The selected technician of `AssignTechnicianToTicketAsync`: `none`
exactly when the candidate set is empty. -/
def selectedTechnician? (db : Db) : Option (Nat × Nat) :=
  match technicianLoads db with
  | [] => none
  | l0 :: ls => some (ls.foldl pickMin l0)

/-- `AssignTechnicianToTicketAsync` (`assignOne`): abort on missing or
already-assigned ticket, empty candidate set, or a failed re-check of the
selected technician's linked user; otherwise write both assignment
fields, `Status := InProgress`, and refresh `UpdatedAt` in one save. -/
def assignOne (db : Db) (ticketId now : Nat) : Db × Option Nat :=
  match findTicket db ticketId with
  | none => (db, none)
  | some ticket =>
    match ticket.technicianId with
    | some _ => (db, none)
    | none =>
      match selectedTechnician? db with
      | none => (db, none)
      | some selected =>
        match findTechnician db selected.1 with
        | none => (db, none)
        | some technician =>
          match technician.userId with
          | none => (db, none)
          | some _ =>
            let t' :=
              { ticket with
                technicianId := some selected.1
                assignedToUserId := technician.userId
                status := TicketStatus.inProgress
                updatedAt := some now }
            ({ db with tickets := replaceFirst db.tickets t' }, some selected.1)

/-- The optional `CreatedAt` range filter of
`AssignUnassignedTicketsAsync`. -/
def inRange (startDate endDate : Option Nat) (t : Ticket) : Bool :=
  (match startDate with
   | some s => decide (s ≤ t.createdAt)
   | none => true) &&
  (match endDate with
   | some e => decide (t.createdAt ≤ e)
   | none => true)

/-- One iteration of the `AssignUnassignedTicketsAsync` loop. -/
def assignBatchStep (now : Nat) (acc : Db × Nat) (t : Ticket) : Db × Nat :=
  match assignOne acc.1 t.id now with
  | (db', some _) => (db', acc.2 + 1)
  | (db', none) => (db', acc.2)

/-- `AssignUnassignedTicketsAsync` (`assignBatch`): snapshot the
unassigned tickets (optionally date-filtered), call `assignOne` on each,
count the successes. -/
def assignBatch (db : Db) (startDate endDate : Option Nat) (now : Nat) : Db × Nat :=
  let unassigned := db.tickets.filter (fun t => t.technicianId.isNone && inRange startDate endDate t)
  unassigned.foldl (assignBatchStep now) (db, 0)

/-- The paired-reference invariant on one ticket: `TechnicianId` is null
iff `AssignedToUserId` is null. -/
def pairedOk (t : Ticket) : Prop :=
  t.technicianId = none ↔ t.assignedToUserId = none

instance (t : Ticket) : Decidable (pairedOk t) := by
  unfold pairedOk; infer_instance

/-- The paired-reference invariant over the whole store. -/
def pairedInv (db : Db) : Prop :=
  ∀ t ∈ db.tickets, pairedOk t

instance (db : Db) : Decidable (pairedInv db) := by
  unfold pairedInv; infer_instance

/-- Number of unassigned tickets (`TechnicianId == null`) in the store. -/
def unassignedCount (db : Db) : Nat :=
  db.tickets.countP (fun t => t.technicianId.isNone)

/-- Store `db'` keeps every ticket row that was already assigned in `db`
untouched (same position, same record). -/
def ticketsPreserveAssigned (db db' : Db) : Prop :=
  db'.tickets.length = db.tickets.length ∧
  ∀ (j : Nat) (x : Ticket), db.tickets.get? j = some x → x.technicianId ≠ none →
    db'.tickets.get? j = some x

/-! ### List-level helper lemmas -/

theorem replaceFirst_cons (x : Ticket) (xs : List Ticket) (t' : Ticket) :
    replaceFirst (x :: xs) t' = if x.id = t'.id then t' :: xs else x :: replaceFirst xs t' := rfl

theorem replaceFirst_length (l : List Ticket) (t' : Ticket) :
    (replaceFirst l t').length = l.length := by
  induction l with
  | nil => rfl
  | cons x xs ih =>
    rw [replaceFirst_cons]
    split
    · simp
    · simpa using ih

theorem mem_replaceFirst {x : Ticket} {l : List Ticket} {t' : Ticket}
    (h : x ∈ replaceFirst l t') : x ∈ l ∨ x = t' := by
  induction l with
  | nil => cases h
  | cons y ys ih =>
    rw [replaceFirst_cons] at h
    split at h
    · rcases List.mem_cons.mp h with h | h
      · exact Or.inr h
      · exact Or.inl (List.mem_cons_of_mem _ h)
    · rcases List.mem_cons.mp h with h | h
      · exact Or.inl (h ▸ List.mem_cons_self _ _)
      · rcases ih h with h | h
        · exact Or.inl (List.mem_cons_of_mem _ h)
        · exact Or.inr h

theorem countP_replaceFirst {l : List Ticket} {x0 t' : Ticket} {n : Nat}
    (hid : t'.id = n) (hf : l.find? (fun t => t.id == n) = some x0)
    (p : Ticket → Bool) (hx0 : p x0 = true) (ht' : p t' = false) :
    (replaceFirst l t').countP p + 1 = l.countP p := by
  induction l with
  | nil => cases hf
  | cons x xs ih =>
    rw [List.find?_cons] at hf
    cases hbx : (x.id == n) with
    | true =>
      rw [hbx] at hf
      have hx0x : x0 = x := by cases hf; rfl
      have hxid : x.id = t'.id := by rw [hid]; exact beq_iff_eq.mp hbx
      have hx' : p x = true := hx0x ▸ hx0
      rw [replaceFirst_cons, if_pos hxid]
      rw [List.countP_cons, List.countP_cons, ht', hx']
      simp
    | false =>
      rw [hbx] at hf
      have hxid : ¬ x.id = t'.id := by
        rw [hid]; exact fun hc => by simp [hc] at hbx
      rw [replaceFirst_cons, if_neg hxid]
      rw [List.countP_cons, List.countP_cons]
      have := ih hf
      omega

theorem get?_replaceFirst {l : List Ticket} {x0 t' : Ticket} {n : Nat}
    (hid : t'.id = n) (hf : l.find? (fun t => t.id == n) = some x0)
    (hx0 : x0.technicianId = none) (j : Nat) (x : Ticket)
    (hjx : l.get? j = some x) (hx : x.technicianId ≠ none) :
    (replaceFirst l t').get? j = some x := by
  induction l generalizing j with
  | nil => cases hjx
  | cons y ys ih =>
    rw [List.find?_cons] at hf
    cases hbx : (y.id == n) with
    | true =>
      rw [hbx] at hf
      have hx0y : x0 = y := by cases hf; rfl
      have hyid : y.id = t'.id := by rw [hid]; exact beq_iff_eq.mp hbx
      rw [replaceFirst_cons, if_pos hyid]
      cases j with
      | zero =>
        have hyx : y = x := by simpa using hjx
        apply absurd _ hx
        rw [← hyx, ← hx0y]
        exact hx0
      | succ k => simpa using hjx
    | false =>
      rw [hbx] at hf
      have hyid : ¬ y.id = t'.id := by
        rw [hid]; exact fun hc => by simp [hc] at hbx
      rw [replaceFirst_cons, if_neg hyid]
      cases j with
      | zero => simpa using hjx
      | succ k =>
        have hjx' : ys.get? k = some x := by simpa using hjx
        simpa using ih hf k hjx'

theorem find?_replaceFirst {l : List Ticket} {x0 t' : Ticket} {n : Nat}
    (hid : t'.id = n) (hf : l.find? (fun t => t.id == n) = some x0) :
    (replaceFirst l t').find? (fun t => t.id == n) = some t' := by
  induction l with
  | nil => cases hf
  | cons x xs ih =>
    rw [List.find?_cons] at hf
    cases hbx : (x.id == n) with
    | true =>
      have hxid : x.id = t'.id := by rw [hid]; exact beq_iff_eq.mp hbx
      rw [replaceFirst_cons, if_pos hxid]
      exact List.find?_cons_of_pos _ (by simp [hid])
    | false =>
      rw [hbx] at hf
      have hxid : ¬ x.id = t'.id := by
        rw [hid]; exact fun hc => by simp [hc] at hbx
      rw [replaceFirst_cons, if_neg hxid, List.find?_cons, hbx]
      exact ih hf

theorem map_replaceFirst {β : Type} {l : List Ticket} {x0 t' : Ticket} {n : Nat}
    (f : Ticket → β) (hid : t'.id = n)
    (hf : l.find? (fun t => t.id == n) = some x0) (hfx : f t' = f x0) :
    (replaceFirst l t').map f = l.map f := by
  induction l with
  | nil => cases hf
  | cons x xs ih =>
    rw [List.find?_cons] at hf
    cases hbx : (x.id == n) with
    | true =>
      rw [hbx] at hf
      have hx0x : x0 = x := by cases hf; rfl
      have hxid : x.id = t'.id := by rw [hid]; exact beq_iff_eq.mp hbx
      rw [replaceFirst_cons, if_pos hxid]
      simp [hfx, hx0x]
    | false =>
      rw [hbx] at hf
      have hxid : ¬ x.id = t'.id := by
        rw [hid]; exact fun hc => by simp [hc] at hbx
      rw [replaceFirst_cons, if_neg hxid]
      simp [ih hf]

theorem find?_append_of_none {α : Type} {p : α → Bool} {l1 l2 : List α}
    (h : l1.find? p = none) : (l1 ++ l2).find? p = l2.find? p := by
  induction l1 with
  | nil => rfl
  | cons x xs ih =>
    rw [List.find?_cons] at h
    cases hp : p x with
    | true => rw [hp] at h; cases h
    | false => rw [hp] at h; simpa [List.find?_cons, hp] using ih h

/-! ### Selection-order lemmas -/

/-- Lexicographic order on `(id, load)` pairs compared as
`(load, then id)` — the sort key of `OrderBy(load).ThenBy(id)`. -/
def lexLe (a b : Nat × Nat) : Prop :=
  a.2 < b.2 ∨ (a.2 = b.2 ∧ a.1 ≤ b.1)

theorem lexLe_refl (a : Nat × Nat) : lexLe a a := by
  unfold lexLe; omega

theorem lexLe_trans {a b c : Nat × Nat} (h1 : lexLe a b) (h2 : lexLe b c) : lexLe a c := by
  unfold lexLe at *; omega

theorem pickMin_eq_or (b c : Nat × Nat) : pickMin b c = b ∨ pickMin b c = c := by
  unfold pickMin; split
  · exact Or.inr rfl
  · exact Or.inl rfl

theorem pickMin_lexLe_left (b c : Nat × Nat) : lexLe (pickMin b c) b := by
  unfold pickMin lexLe; split <;> omega

theorem pickMin_lexLe_right (b c : Nat × Nat) : lexLe (pickMin b c) c := by
  unfold pickMin lexLe; split <;> omega

theorem foldl_pickMin_mem (l : List (Nat × Nat)) :
    ∀ b, l.foldl pickMin b = b ∨ l.foldl pickMin b ∈ l := by
  induction l with
  | nil => intro b; exact Or.inl rfl
  | cons c cs ih =>
    intro b
    rcases ih (pickMin b c) with h | h
    · rcases pickMin_eq_or b c with h' | h'
      · exact Or.inl (by rw [List.foldl_cons, h, h'])
      · exact Or.inr (by rw [List.foldl_cons, h, h']; exact List.mem_cons_self _ _)
    · exact Or.inr (List.mem_cons_of_mem _ (by rw [List.foldl_cons]; exact h))

theorem foldl_pickMin_lexLe (l : List (Nat × Nat)) :
    ∀ b, lexLe (l.foldl pickMin b) b ∧ ∀ x ∈ l, lexLe (l.foldl pickMin b) x := by
  induction l with
  | nil =>
    intro b
    exact ⟨lexLe_refl b, by intro x hx; cases hx⟩
  | cons c cs ih =>
    intro b
    rw [List.foldl_cons]
    obtain ⟨h1, h2⟩ := ih (pickMin b c)
    refine ⟨lexLe_trans h1 (pickMin_lexLe_left b c), ?_⟩
    intro x hx
    rcases List.mem_cons.mp hx with hx | hx
    · rw [hx]; exact lexLe_trans h1 (pickMin_lexLe_right b c)
    · exact h2 x hx

/-! ### `assignOne` characterization -/

/-- The one successful path of `assignOne`: the ticket exists and is
unassigned, a technician was selected from the candidate set, the
re-check of its linked user passed, and the save writes both assignment
fields, `InProgress` and the new `UpdatedAt` into that ticket's row. -/
theorem assignOne_success {db : Db} {tid now : Nat} {db2 : Db} {w : Nat}
    (h : assignOne db tid now = (db2, some w)) :
    ∃ ticket technician sel,
      findTicket db tid = some ticket ∧
      ticket.technicianId = none ∧
      selectedTechnician? db = some sel ∧
      sel.1 = w ∧
      findTechnician db w = some technician ∧
      technician.userId ≠ none ∧
      db2 = { db with tickets := replaceFirst db.tickets { ticket with technicianId := some w, assignedToUserId := technician.userId, status := TicketStatus.inProgress, updatedAt := some now } } := by
  unfold assignOne at h
  cases hft : findTicket db tid with
  | none => rw [hft] at h; dsimp only at h; cases h
  | some ticket =>
    rw [hft] at h; dsimp only at h
    cases htid : ticket.technicianId with
    | some v => rw [htid] at h; dsimp only at h; cases h
    | none =>
      rw [htid] at h; dsimp only at h
      cases hsel : selectedTechnician? db with
      | none => rw [hsel] at h; dsimp only at h; cases h
      | some sel =>
        rw [hsel] at h; dsimp only at h
        cases htech : findTechnician db sel.1 with
        | none => rw [htech] at h; dsimp only at h; cases h
        | some technician =>
          rw [htech] at h; dsimp only at h
          cases huid : technician.userId with
          | none => rw [huid] at h; dsimp only at h; cases h
          | some u =>
            rw [huid] at h; dsimp only at h
            rw [Prod.mk.injEq] at h
            obtain ⟨h1, h2⟩ := h
            have hw : sel.1 = w := Option.some.inj h2
            subst hw
            refine ⟨ticket, technician, sel, ?_, ?_, ?_, ?_, ?_, ?_, ?_⟩
            · rfl
            · exact htid
            · rfl
            · rfl
            · exact htech
            · rw [huid]; exact fun hc => by cases hc
            · rw [huid]; exact h1.symm

/-- All failure paths of `assignOne` leave the store untouched. -/
theorem assignOne_none {db : Db} {tid now : Nat} {db2 : Db}
    (h : assignOne db tid now = (db2, none)) : db2 = db := by
  unfold assignOne at h
  cases hft : findTicket db tid with
  | none => rw [hft] at h; dsimp only at h; exact (congrArg Prod.fst h).symm
  | some ticket =>
    rw [hft] at h; dsimp only at h
    cases htid : ticket.technicianId with
    | some v => rw [htid] at h; dsimp only at h; exact (congrArg Prod.fst h).symm
    | none =>
      rw [htid] at h; dsimp only at h
      cases hsel : selectedTechnician? db with
      | none => rw [hsel] at h; dsimp only at h; exact (congrArg Prod.fst h).symm
      | some sel =>
        rw [hsel] at h; dsimp only at h
        cases htech : findTechnician db sel.1 with
        | none => rw [htech] at h; dsimp only at h; exact (congrArg Prod.fst h).symm
        | some technician =>
          rw [htech] at h; dsimp only at h
          cases huid : technician.userId with
          | none => rw [huid] at h; dsimp only at h; exact (congrArg Prod.fst h).symm
          | some u =>
            rw [huid] at h; dsimp only at h
            cases congrArg Prod.snd h

/-! ### Batch and invariant lemmas -/

theorem ticket_id_of_findTicket {db : Db} {tid : Nat} {ticket : Ticket}
    (h : findTicket db tid = some ticket) : ticket.id = tid := by
  unfold findTicket at h
  have hp := List.find?_some h
  exact beq_iff_eq.mp hp

theorem mem_of_findTicket {db : Db} {tid : Nat} {ticket : Ticket}
    (h : findTicket db tid = some ticket) : ticket ∈ db.tickets := by
  unfold findTicket at h
  exact List.mem_of_find?_eq_some h

theorem technician_id_of_findTechnician {db : Db} {tid : Nat} {tech : Technician}
    (h : findTechnician db tid = some tech) : tech.id = tid := by
  unfold findTechnician at h
  have hp := List.find?_some h
  exact beq_iff_eq.mp hp

theorem mem_of_findTechnician {db : Db} {tid : Nat} {tech : Technician}
    (h : findTechnician db tid = some tech) : tech ∈ db.technicians := by
  unfold findTechnician at h
  exact List.mem_of_find?_eq_some h

/-- A successful `assignOne` turns exactly one unassigned row into an
assigned one. -/
theorem unassignedCount_assignOne_some {db : Db} {tid now : Nat} {db2 : Db} {w : Nat}
    (h : assignOne db tid now = (db2, some w)) :
    unassignedCount db2 + 1 = unassignedCount db := by
  obtain ⟨ticket, technician, sel, hft, htid, hsel, hw, htech, huid, hdb⟩ := assignOne_success h
  rw [hdb]
  unfold unassignedCount
  have hft' : db.tickets.find? (fun t => t.id == tid) = some ticket := hft
  refine countP_replaceFirst ?_ hft' (fun t => t.technicianId.isNone) ?_ ?_
  · have hti := ticket_id_of_findTicket hft
    exact hti
  · dsimp only; rw [htid]; rfl
  · rfl

theorem assignBatchStep_fst (now : Nat) (acc : Db × Nat) (t : Ticket) :
    (assignBatchStep now acc t).1 = (assignOne acc.1 t.id now).1 := by
  unfold assignBatchStep
  cases hr : assignOne acc.1 t.id now with
  | mk db' r => cases r <;> rfl

/-- Loop invariant of `assignBatch`: the success count plus the number of
still-unassigned tickets is conserved. -/
theorem batch_sum (now : Nat) (l : List Ticket) :
    ∀ acc : Db × Nat,
      (l.foldl (assignBatchStep now) acc).2 + unassignedCount (l.foldl (assignBatchStep now) acc).1
        = acc.2 + unassignedCount acc.1 := by
  induction l with
  | nil => intro acc; rfl
  | cons t ts ih =>
    intro acc
    rw [List.foldl_cons, ih (assignBatchStep now acc t)]
    unfold assignBatchStep
    cases hr : assignOne acc.1 t.id now with
    | mk db' r =>
      cases r with
      | none =>
        have hdb : db' = acc.1 := assignOne_none hr
        rw [hdb]
      | some w =>
        have := unassignedCount_assignOne_some hr
        dsimp only
        omega

/-- `assignBatch` assigns at most as many tickets as were unassigned. -/
theorem assignBatch_count_le (db : Db) (sd ed : Option Nat) (now : Nat) :
    (assignBatch db sd ed now).2 ≤ unassignedCount db := by
  have h := batch_sum now (db.tickets.filter (fun t => t.technicianId.isNone && inRange sd ed t)) (db, 0)
  unfold assignBatch
  dsimp only
  dsimp only at h
  omega

theorem ticketsPreserveAssigned_refl (db : Db) : ticketsPreserveAssigned db db :=
  ⟨rfl, fun _ _ h _ => h⟩

theorem ticketsPreserveAssigned_trans {db db1 db2 : Db}
    (h1 : ticketsPreserveAssigned db db1) (h2 : ticketsPreserveAssigned db1 db2) :
    ticketsPreserveAssigned db db2 :=
  ⟨h2.1.trans h1.1, fun j x h hx => h2.2 j x (h1.2 j x h hx) hx⟩

theorem ticketsPreserveAssigned_assignOne (db : Db) (tid now : Nat) :
    ticketsPreserveAssigned db (assignOne db tid now).1 := by
  cases hr : assignOne db tid now with
  | mk db' r =>
    cases r with
    | none => rw [assignOne_none hr]; exact ticketsPreserveAssigned_refl db
    | some w =>
      obtain ⟨ticket, technician, sel, hft, htid, hsel, hw, htech, huid, hdb⟩ :=
        assignOne_success hr
      have hft' : db.tickets.find? (fun t => t.id == tid) = some ticket := hft
      dsimp only
      rw [hdb]
      constructor
      · exact replaceFirst_length _ _
      · intro j x hj hx
        refine get?_replaceFirst ?_ hft' htid j x hj hx
        have hti := ticket_id_of_findTicket hft
        exact hti

theorem ticketsPreserveAssigned_foldl (now : Nat) (l : List Ticket) :
    ∀ acc : Db × Nat, ticketsPreserveAssigned acc.1 ((l.foldl (assignBatchStep now) acc).1) := by
  induction l with
  | nil => intro acc; exact ticketsPreserveAssigned_refl acc.1
  | cons t ts ih =>
    intro acc
    rw [List.foldl_cons]
    refine ticketsPreserveAssigned_trans ?_ (ih (assignBatchStep now acc t))
    rw [assignBatchStep_fst]
    exact ticketsPreserveAssigned_assignOne acc.1 t.id now

/-- `assignBatch` never touches a row that was already assigned. -/
theorem ticketsPreserveAssigned_assignBatch (db : Db) (sd ed : Option Nat) (now : Nat) :
    ticketsPreserveAssigned db (assignBatch db sd ed now).1 :=
  ticketsPreserveAssigned_foldl now _ (db, 0)

/-! ### Field-frame lemmas for the update operations -/

theorem applyUpdate_id (t : Ticket) (role : UserRole) (req : TicketUpdateRequest) (now : Nat) :
    (applyUpdate t role req now).id = t.id := by
  simp only [applyUpdate]
  repeat' split
  all_goals rfl

theorem applyUpdate_technicianId (t : Ticket) (role : UserRole) (req : TicketUpdateRequest)
    (now : Nat) : (applyUpdate t role req now).technicianId = t.technicianId := by
  simp only [applyUpdate]
  repeat' split
  all_goals rfl

theorem applyUpdate_assignedToUserId (t : Ticket) (role : UserRole)
    (req : TicketUpdateRequest) (now : Nat)
    (h : role = UserRole.admin → req.assignedToUserId = none) :
    (applyUpdate t role req now).assignedToUserId = t.assignedToUserId := by
  simp only [applyUpdate]
  repeat' split
  all_goals simp_all

theorem applyUpdate_dueDate_admin (t : Ticket) (req : TicketUpdateRequest) (now : Nat) :
    (applyUpdate t UserRole.admin req now).dueDate = req.dueDate := by
  simp only [applyUpdate]
  repeat' split
  all_goals simp_all

theorem applyUpdate_dueDate_nonadmin (t : Ticket) (role : UserRole)
    (req : TicketUpdateRequest) (now : Nat) (h : role ≠ UserRole.admin) :
    (applyUpdate t role req now).dueDate = t.dueDate := by
  simp only [applyUpdate]
  repeat' split
  all_goals simp_all

theorem applyMessageStatus_id (author : User) (t : Ticket) (st : Option TicketStatus) :
    (applyMessageStatus author t st).id = t.id := by
  simp only [applyMessageStatus]
  repeat' split
  all_goals rfl

theorem applyMessageStatus_technicianId (author : User) (t : Ticket)
    (st : Option TicketStatus) :
    (applyMessageStatus author t st).technicianId = t.technicianId := by
  simp only [applyMessageStatus]
  repeat' split
  all_goals rfl

theorem applyMessageStatus_assignedToUserId (author : User) (t : Ticket)
    (st : Option TicketStatus) :
    (applyMessageStatus author t st).assignedToUserId = t.assignedToUserId := by
  simp only [applyMessageStatus]
  repeat' split
  all_goals rfl

/-! ### Paired-reference invariant preservation -/

theorem pairedOk_of_mem_replaceFirst {l : List Ticket} {t' x : Ticket}
    (h : ∀ y ∈ l, pairedOk y) (h' : pairedOk t') (hx : x ∈ replaceFirst l t') :
    pairedOk x := by
  rcases mem_replaceFirst hx with hm | hm
  · exact h x hm
  · exact hm ▸ h'

theorem pairedInv_createTicket {db : Db} (h : pairedInv db) (uid : Nat)
    (req : TicketCreateRequest) (newId now : Nat) :
    pairedInv (createTicket db uid req newId now).1 := by
  intro t ht
  simp only [createTicket] at ht
  rcases List.mem_append.mp ht with hm | hm
  · exact h t hm
  · have : t = (createTicket db uid req newId now).2 := by simpa using hm
    rw [this]
    exact Iff.rfl

theorem pairedInv_updateTicket {db : Db} (h : pairedInv db) (tid uid : Nat) (role : UserRole)
    (req : TicketUpdateRequest) (now : Nat)
    (hadm : role = UserRole.admin → req.assignedToUserId = none) :
    pairedInv (updateTicket db tid uid role req now).1 := by
  unfold updateTicket
  cases hft : findTicket db tid with
  | none => exact h
  | some ticket =>
    dsimp only
    split
    · exact h
    · split
      · exact h
      · intro x hx
        refine pairedOk_of_mem_replaceFirst h ?_ hx
        unfold pairedOk
        rw [applyUpdate_technicianId, applyUpdate_assignedToUserId _ _ _ _ hadm]
        exact h ticket (mem_of_findTicket hft)

theorem pairedInv_addMessage {db : Db} (h : pairedInv db) (tid uid : Nat) (msg : String)
    (st : Option TicketStatus) (now mid : Nat) :
    pairedInv (addMessage db tid uid msg st now mid).1 := by
  unfold addMessage
  cases hft : findTicket db tid with
  | none => exact h
  | some ticket =>
    dsimp only
    cases hfu : findUser db uid with
    | none => exact h
    | some author =>
      dsimp only
      split
      · exact h
      · split
        · exact h
        · split
          · exact h
          · intro x hx
            refine pairedOk_of_mem_replaceFirst h ?_ hx
            unfold pairedOk
            rw [applyMessageStatus_technicianId, applyMessageStatus_assignedToUserId]
            exact h ticket (mem_of_findTicket hft)

theorem pairedInv_assignOne {db : Db} (h : pairedInv db) (tid now : Nat) :
    pairedInv (assignOne db tid now).1 := by
  cases hr : assignOne db tid now with
  | mk db' r =>
    cases r with
    | none => rw [assignOne_none hr]; exact h
    | some w =>
      obtain ⟨ticket, technician, sel, hft, htid, hsel, hw, htech, huid, hdb⟩ :=
        assignOne_success hr
      dsimp only
      rw [hdb]
      intro x hx
      refine pairedOk_of_mem_replaceFirst h ?_ hx
      unfold pairedOk
      constructor
      · intro hc; cases hc
      · intro hc; exact absurd hc huid

theorem pairedInv_foldl (now : Nat) (l : List Ticket) :
    ∀ acc : Db × Nat, pairedInv acc.1 → pairedInv ((l.foldl (assignBatchStep now) acc).1) := by
  induction l with
  | nil => intro acc h; exact h
  | cons t ts ih =>
    intro acc h
    rw [List.foldl_cons]
    apply ih
    rw [assignBatchStep_fst]
    exact pairedInv_assignOne h t.id now

theorem pairedInv_assignBatch {db : Db} (h : pairedInv db) (sd ed : Option Nat) (now : Nat) :
    pairedInv (assignBatch db sd ed now).1 := by
  unfold assignBatch
  dsimp only
  exact pairedInv_foldl now _ (db, 0) h

theorem pairedInv_assignTicket {db : Db} (h : pairedInv db) (tid techId now : Nat)
    (htech : ∀ tech ∈ db.technicians, tech.id = techId → tech.userId ≠ none) :
    pairedInv (assignTicket db tid techId now).1 := by
  unfold assignTicket
  cases hft : findTicket db tid with
  | none => exact h
  | some ticket =>
    dsimp only
    cases hfd : findTechnician db techId with
    | none => exact h
    | some technician =>
      dsimp only
      split
      · intro x hx
        refine pairedOk_of_mem_replaceFirst h ?_ hx
        unfold pairedOk
        constructor
        · intro hc; cases hc
        · intro hc
          exact absurd hc
            (htech technician (mem_of_findTechnician hfd) (technician_id_of_findTechnician hfd))
      · exact h

/-! ### Concrete fixtures used by the witnesses and counterexamples -/

/-- An unassigned `New` ticket created by user 1. -/
def wt1 : Ticket :=
  { id := 1, title := "printer down", description := "the printer is down",
    categoryId := 1, subcategoryId := none, priority := TicketPriority.medium,
    status := TicketStatus.new, createdByUserId := 1, technicianId := none,
    assignedToUserId := none, dueDate := none, createdAt := 0, updatedAt := none }

/-- An active technician profile linked to user account 2. -/
def wtech1 : Technician :=
  { id := 1, fullName := "tech one", email := "tech@x", phone := none,
    department := none, isActive := true, createdAt := 0, userId := some 2 }

/-- The client account that created `wt1`. -/
def wuser1 : User :=
  { id := 1, fullName := "client one", email := "client@x", role := UserRole.client }

/-- The technician user account linked from `wtech1`. -/
def wuser2 : User :=
  { id := 2, fullName := "tech one", email := "tech@x", role := UserRole.technician }

/-- Base store: one unassigned ticket, one eligible technician, two users. -/
def wdb : Db :=
  { tickets := [wt1], technicians := [wtech1], users := [wuser1, wuser2], messages := [] }

/-- An admin patch that only sets `AssignedToUserId`. -/
def wreqAssign : TicketUpdateRequest :=
  { description := none, priority := none, status := none,
    assignedToUserId := some 5, dueDate := none }

/-- An empty patch. -/
def wreqEmpty : TicketUpdateRequest :=
  { description := none, priority := none, status := none,
    assignedToUserId := none, dueDate := none }

/-- A create request. -/
def wcreq : TicketCreateRequest :=
  { title := "no email", description := "mail client broken", categoryId := 2,
    subcategoryId := none, priority := TicketPriority.high }

/-! ### Claims -/

/-- C1 (counterexample): the paired-reference invariant does NOT hold
after every mutation.  Store `wdb` satisfies it, but an Admin
`updateTicket` whose patch sets `AssignedToUserId := 5` leaves
`TechnicianId` null, so afterwards `technicianRef == null` while
`assignedUserRef != null`. -/
theorem c1_counterexample :
    pairedInv wdb ∧
    (updateTicket wdb 1 9 UserRole.admin wreqAssign 3).2 ≠ none ∧
    ¬ pairedInv (updateTicket wdb 1 9 UserRole.admin wreqAssign 3).1 := by
  refine ⟨by decide, by decide, by decide⟩

/-- C1 (amended): the paired-reference invariant
(`technicianRef == null ⟺ assignedUserRef == null`) is preserved by
`createTicket`, `addMessage`, `assignOne` and `assignBatch`
unconditionally; by `updateTicket` provided the patch does not ask an
Admin to set `AssignedToUserId` (that code path sets `AssignedToUserId`
without touching `TechnicianId`); and by the admin assign operation
provided the technician being assigned has a non-null linked user
reference (that code path copies `technician.UserId` into
`AssignedToUserId` without checking it for null). -/
theorem c1_paired_invariant_amended (db : Db) (h : pairedInv db)
    (uid1 : Nat) (creq : TicketCreateRequest) (newId now1 : Nat)
    (tid2 uid2 : Nat) (role : UserRole) (req : TicketUpdateRequest) (now2 : Nat)
    (tid3 uid3 : Nat) (msg : String) (st : Option TicketStatus) (now3 mid : Nat)
    (tid4 now4 : Nat) (sd ed : Option Nat) (now5 : Nat) (tid6 techId now6 : Nat)
    (hadm : role = UserRole.admin → req.assignedToUserId = none)
    (htech : ∀ tech ∈ db.technicians, tech.id = techId → tech.userId ≠ none) :
    pairedInv (createTicket db uid1 creq newId now1).1 ∧
    pairedInv (updateTicket db tid2 uid2 role req now2).1 ∧
    pairedInv (addMessage db tid3 uid3 msg st now3 mid).1 ∧
    pairedInv (assignOne db tid4 now4).1 ∧
    pairedInv (assignBatch db sd ed now5).1 ∧
    pairedInv (assignTicket db tid6 techId now6).1 :=
  ⟨pairedInv_createTicket h uid1 creq newId now1,
   pairedInv_updateTicket h tid2 uid2 role req now2 hadm,
   pairedInv_addMessage h tid3 uid3 msg st now3 mid,
   pairedInv_assignOne h tid4 now4,
   pairedInv_assignBatch h sd ed now5,
   pairedInv_assignTicket h tid6 techId now6 htech⟩

/-- C1 witness: the amended invariant theorem applied to the concrete
store `wdb` with a Client update and technician 1. -/
theorem c1_paired_invariant_amended_witness :
    pairedInv wdb ∧
    (UserRole.client = UserRole.admin → wreqEmpty.assignedToUserId = none) ∧
    (∀ tech ∈ wdb.technicians, tech.id = 1 → tech.userId ≠ none) ∧
    (pairedInv (createTicket wdb 1 wcreq 99 0).1 ∧
     pairedInv (updateTicket wdb 1 1 UserRole.client wreqEmpty 2).1 ∧
     pairedInv (addMessage wdb 1 1 "hello" none 3 50).1 ∧
     pairedInv (assignOne wdb 1 4).1 ∧
     pairedInv (assignBatch wdb none none 5).1 ∧
     pairedInv (assignTicket wdb 1 1 6).1) :=
  ⟨by decide, by decide, by decide,
   c1_paired_invariant_amended wdb (by decide) 1 wcreq 99 0 1 1 UserRole.client wreqEmpty 2
     1 1 "hello" none 3 50 1 4 none none 5 1 1 6 (by decide) (by decide)⟩

/-- C2: a Client author (who passes the access check, i.e. owns the
ticket) asking `addMessage` for `Resolved` or `Closed` gets the
`StatusChangeForbidden` error and the store is unchanged: no message is
appended and the ticket keeps its status and `UpdatedAt`, so the Client
never observes a closing caused by their own call. -/
theorem c2_client_close_forbidden (db : Db) (tid uid : Nat) (t : Ticket) (u : User)
    (m : String) (s : TicketStatus) (now mid : Nat)
    (ht : findTicket db tid = some t)
    (hu : findUser db uid = some u)
    (hrole : u.role = UserRole.client)
    (hacc : t.createdByUserId = uid)
    (hs : s = TicketStatus.resolved ∨ s = TicketStatus.closed) :
    addMessage db tid uid m (some s) now mid = (db, AddMessageResult.forbidden) := by
  unfold addMessage
  rw [ht]
  dsimp only
  rw [hu]
  dsimp only
  rw [if_neg (fun hc => hc.2 hacc)]
  rw [if_neg (fun hc => by rw [hrole] at hc; cases hc.1)]
  rw [if_pos ⟨hrole, by rcases hs with h | h <;> [exact Or.inl (by rw [h]); exact Or.inr (by rw [h])]⟩]

/-- C2 witness: the Client who created `wt1` asks for `Resolved` via
message and is refused with the store unchanged. -/
theorem c2_client_close_forbidden_witness :
    findTicket wdb 1 = some wt1 ∧ findUser wdb 1 = some wuser1 ∧
    wuser1.role = UserRole.client ∧ wt1.createdByUserId = 1 ∧
    (TicketStatus.resolved = TicketStatus.resolved ∨ TicketStatus.resolved = TicketStatus.closed) ∧
    addMessage wdb 1 1 "please close" (some TicketStatus.resolved) 5 9 = (wdb, AddMessageResult.forbidden) :=
  ⟨by decide, by decide, by decide, by decide, Or.inl rfl,
   c2_client_close_forbidden wdb 1 1 wt1 wuser1 "please close" TicketStatus.resolved 5 9
     (by decide) (by decide) (by decide) (by decide) (Or.inl rfl)⟩

/-- C3: whenever `assignOne` assigns technician `w`, `w` belongs to the
candidate set, its load is minimal over the candidate set, and among
equally loaded candidates it has the lowest id. -/
theorem c3_least_loaded (db : Db) (tid now w : Nat) (tech' : Technician)
    (h : (assignOne db tid now).2 = some w)
    (htech' : tech' ∈ eligibleTechnicians db) :
    w ∈ (eligibleTechnicians db).map Technician.id ∧
    (loadCount db w < loadCount db tech'.id ∨
      (loadCount db w = loadCount db tech'.id ∧ w ≤ tech'.id)) := by
  have hpair : assignOne db tid now = ((assignOne db tid now).1, some w) := by
    rw [← h]
  obtain ⟨ticket, technician, sel, hft, htid, hsel, hw, htech, huid, hdb⟩ :=
    assignOne_success hpair
  unfold selectedTechnician? at hsel
  cases hl : technicianLoads db with
  | nil => rw [hl] at hsel; cases hsel
  | cons l0 ls =>
    rw [hl] at hsel
    dsimp only at hsel
    have hselv : sel = ls.foldl pickMin l0 := (Option.some.inj hsel).symm
    have hmem : sel ∈ l0 :: ls := by
      rcases foldl_pickMin_mem ls l0 with hm | hm
      · rw [hselv, hm]; exact List.mem_cons_self _ _
      · rw [hselv]; exact List.mem_cons_of_mem _ hm
    have hmem' : sel ∈ technicianLoads db := hl ▸ hmem
    unfold technicianLoads at hmem'
    obtain ⟨tech, htm, hteq⟩ := List.mem_map.mp hmem'
    have h1 : sel.1 = tech.id := (congrArg Prod.fst hteq).symm
    have h2 : sel.2 = loadCount db tech.id := (congrArg Prod.snd hteq).symm
    have hsel2 : sel.2 = loadCount db sel.1 := by rw [h1, h2]
    constructor
    · exact List.mem_map.mpr ⟨tech, htm, by rw [← h1, hw]⟩
    · have hx' : (tech'.id, loadCount db tech'.id) ∈ technicianLoads db :=
        List.mem_map.mpr ⟨tech', htech', rfl⟩
      rw [hl] at hx'
      have hle : lexLe sel (tech'.id, loadCount db tech'.id) := by
        rcases List.mem_cons.mp hx' with hx | hx
        · rw [hselv, hx]; exact (foldl_pickMin_lexLe ls l0).1
        · rw [hselv]; exact (foldl_pickMin_lexLe ls l0).2 _ hx
      unfold lexLe at hle
      rcases hle with hlt | ⟨heq, hle1⟩
      · left
        rw [← hw, ← hsel2]
        exact hlt
      · right
        constructor
        · rw [← hw, ← hsel2]; exact heq
        · rw [← hw]; exact hle1

/-- C3 witness: on the concrete store the single eligible technician 1 is
chosen and trivially minimal. -/
theorem c3_least_loaded_witness :
    (assignOne wdb 1 0).2 = some 1 ∧ wtech1 ∈ eligibleTechnicians wdb ∧
    (1 ∈ (eligibleTechnicians wdb).map Technician.id ∧
     (loadCount wdb 1 < loadCount wdb wtech1.id ∨
       (loadCount wdb 1 = loadCount wdb wtech1.id ∧ 1 ≤ wtech1.id))) :=
  ⟨by decide, by decide, c3_least_loaded wdb 1 0 1 wtech1 (by decide) (by decide)⟩

/-- C4: `assignOne` returns `null` and leaves the store untouched on an
already-assigned ticket; consequently a second `assignBatch` reassigns
nothing: its count is bounded by the tickets still unassigned after the
first run, and every row the first run assigned is untouched by the
second run. -/
theorem c4_batch_idempotent (db : Db) (tid : Nat) (t : Ticket) (now : Nat)
    (db0 : Db) (sd1 ed1 : Option Nat) (now1 : Nat) (sd2 ed2 : Option Nat) (now2 : Nat)
    (ht : findTicket db tid = some t)
    (hassigned : t.technicianId ≠ none) :
    assignOne db tid now = (db, none) ∧
    (assignBatch (assignBatch db0 sd1 ed1 now1).1 sd2 ed2 now2).2
      ≤ unassignedCount (assignBatch db0 sd1 ed1 now1).1 ∧
    ticketsPreserveAssigned (assignBatch db0 sd1 ed1 now1).1
      (assignBatch (assignBatch db0 sd1 ed1 now1).1 sd2 ed2 now2).1 := by
  refine ⟨?_, assignBatch_count_le _ _ _ _, ticketsPreserveAssigned_assignBatch _ _ _ _⟩
  unfold assignOne
  rw [ht]
  dsimp only
  cases htc : t.technicianId with
  | none => exact absurd htc hassigned
  | some v => rfl

/-- A ticket already assigned to technician 1 / user 2. -/
def wt2 : Ticket :=
  { id := 2, title := "vpn", description := "vpn drops", categoryId := 1,
    subcategoryId := none, priority := TicketPriority.low,
    status := TicketStatus.inProgress, createdByUserId := 1,
    technicianId := some 1, assignedToUserId := some 2, dueDate := none,
    createdAt := 0, updatedAt := none }

/-- Store with one assigned and one unassigned ticket. -/
def wdbAssigned : Db :=
  { tickets := [wt2, wt1], technicians := [wtech1], users := [wuser1, wuser2], messages := [] }

/-- C4 witness: the already-assigned ticket `wt2` is skipped and the
double-batch bounds hold on the concrete store. -/
theorem c4_batch_idempotent_witness :
    findTicket wdbAssigned 2 = some wt2 ∧ wt2.technicianId ≠ none ∧
    (assignOne wdbAssigned 2 5 = (wdbAssigned, none) ∧
     (assignBatch (assignBatch wdbAssigned none none 1).1 none none 2).2
       ≤ unassignedCount (assignBatch wdbAssigned none none 1).1 ∧
     ticketsPreserveAssigned (assignBatch wdbAssigned none none 1).1
       (assignBatch (assignBatch wdbAssigned none none 1).1 none none 2).1) :=
  ⟨by decide, by decide,
   c4_batch_idempotent wdbAssigned 2 wt2 5 wdbAssigned none none 1 none none 2
     (by decide) (by decide)⟩

/-- C5: on an existing unassigned ticket, if the candidate set is empty,
or the re-verification lookup of the selected technician finds a null
linked user, `assignOne` returns the non-error `null` result and the
store — hence the ticket, still unassigned — is unchanged. -/
theorem c5_no_assignment (db : Db) (tid now : Nat) (t : Ticket)
    (ht : findTicket db tid = some t)
    (hun : t.technicianId = none)
    (h : eligibleTechnicians db = [] ∨
         ∃ sel tech, selectedTechnician? db = some sel ∧
           findTechnician db sel.1 = some tech ∧ tech.userId = none) :
    assignOne db tid now = (db, none) := by
  unfold assignOne
  rw [ht]
  dsimp only
  rw [hun]
  dsimp only
  rcases h with hel | ⟨sel, tech, hsel, hfd, hnone⟩
  · have hnosel : selectedTechnician? db = none := by
      unfold selectedTechnician? technicianLoads
      rw [hel]
      rfl
    rw [hnosel]
  · rw [hsel]
    dsimp only
    rw [hfd]
    dsimp only
    rw [hnone]

/-- Store with an unassigned ticket and no technicians at all. -/
def wdbNoTech : Db :=
  { tickets := [wt1], technicians := [], users := [wuser1], messages := [] }

/-- C5 witness: with an empty candidate set `assignOne` makes no
assignment and leaves the store as it was. -/
theorem c5_no_assignment_witness :
    findTicket wdbNoTech 1 = some wt1 ∧ wt1.technicianId = none ∧
    eligibleTechnicians wdbNoTech = [] ∧
    assignOne wdbNoTech 1 7 = (wdbNoTech, none) :=
  ⟨by decide, by decide, by decide,
   c5_no_assignment wdbNoTech 1 7 wt1 (by decide) (by decide) (Or.inl (by decide))⟩

/-- C6: `createTicket` always yields a `New`, fully unassigned ticket,
stored under its fresh id; if `assignOne` run on it succeeds with
technician `w`, the stored ticket ends `InProgress` with
`technicianRef = w` and `assignedUserRef` equal to that same
technician's (non-null) linked user id, written in the same save. -/
theorem c6_create_then_assign (db : Db) (uid : Nat) (creq : TicketCreateRequest)
    (newId now now' : Nat) (db2 : Db) (w : Nat)
    (hfresh : ∀ t ∈ db.tickets, t.id ≠ newId)
    (hassign : assignOne (createTicket db uid creq newId now).1 newId now' = (db2, some w)) :
    (createTicket db uid creq newId now).2.status = TicketStatus.new ∧
    (createTicket db uid creq newId now).2.technicianId = none ∧
    (createTicket db uid creq newId now).2.assignedToUserId = none ∧
    findTicket (createTicket db uid creq newId now).1 newId = some (createTicket db uid creq newId now).2 ∧
    ∃ tech, findTechnician (createTicket db uid creq newId now).1 w = some tech ∧
      tech.userId ≠ none ∧
      findTicket db2 newId = some { (createTicket db uid creq newId now).2 with technicianId := some w, assignedToUserId := tech.userId, status := TicketStatus.inProgress, updatedAt := some now' } := by
  have hnone : db.tickets.find? (fun t => t.id == newId) = none := by
    apply List.find?_eq_none.mpr
    intro x hx
    simp [hfresh x hx]
  have h4 : findTicket (createTicket db uid creq newId now).1 newId
      = some (createTicket db uid creq newId now).2 := by
    unfold findTicket createTicket
    dsimp only
    rw [find?_append_of_none hnone]
    rw [List.find?_cons_of_pos _ (by simp)]
  refine ⟨rfl, rfl, rfl, h4, ?_⟩
  obtain ⟨ticket, technician, sel, hft, htid, hsel, hw, htech, huid, hdb⟩ :=
    assignOne_success hassign
  have hteq : ticket = (createTicket db uid creq newId now).2 :=
    Option.some.inj (hft.symm.trans h4)
  subst hteq
  refine ⟨technician, htech, huid, ?_⟩
  rw [hdb]
  unfold findTicket
  dsimp only
  refine find?_replaceFirst ?_ hft
  rfl

/-- C6 witness: creating ticket 99 in the concrete store and assigning
it succeeds with technician 1 / linked user 2. -/
theorem c6_create_then_assign_witness :
    (∀ t ∈ wdb.tickets, t.id ≠ 99) ∧
    assignOne (createTicket wdb 1 wcreq 99 0).1 99 8 =
      ((assignOne (createTicket wdb 1 wcreq 99 0).1 99 8).1, some 1) ∧
    ((createTicket wdb 1 wcreq 99 0).2.status = TicketStatus.new ∧
     (createTicket wdb 1 wcreq 99 0).2.technicianId = none ∧
     (createTicket wdb 1 wcreq 99 0).2.assignedToUserId = none ∧
     findTicket (createTicket wdb 1 wcreq 99 0).1 99 = some (createTicket wdb 1 wcreq 99 0).2 ∧
     ∃ tech, findTechnician (createTicket wdb 1 wcreq 99 0).1 1 = some tech ∧
       tech.userId ≠ none ∧
       findTicket (assignOne (createTicket wdb 1 wcreq 99 0).1 99 8).1 99 = some { (createTicket wdb 1 wcreq 99 0).2 with technicianId := some 1, assignedToUserId := tech.userId, status := TicketStatus.inProgress, updatedAt := some 8 }) :=
  ⟨by decide, by decide,
   c6_create_then_assign wdb 1 wcreq 99 0 8 (assignOne (createTicket wdb 1 wcreq 99 0).1 99 8).1 1
     (by decide) (by decide)⟩

/-- C7: an existing ticket outside the actor's access scope (a Client who
is not the creator, or a Technician matching neither assignment field)
yields exactly the missing-ticket result from `getTicket`, `updateTicket`
and `addMessage` — `none`/`notFound`, never a distinct
permission-denied value — with the store unchanged. -/
theorem c7_scope_notfound (db : Db) (tid uid : Nat) (role : UserRole) (t : Ticket) (u : User)
    (req : TicketUpdateRequest) (m : String) (st : Option TicketStatus) (now now2 mid : Nat)
    (ht : findTicket db tid = some t)
    (hu : findUser db uid = some u)
    (hrole : u.role = role)
    (hscope : (role = UserRole.client ∧ t.createdByUserId ≠ uid) ∨
              (role = UserRole.technician ∧ t.technicianId ≠ some uid ∧ t.assignedToUserId ≠ some uid)) :
    getTicket db tid uid role = none ∧
    updateTicket db tid uid role req now = (db, none) ∧
    addMessage db tid uid m st now2 mid = (db, AddMessageResult.notFound) := by
  rcases hscope with ⟨hr, hne⟩ | ⟨hr, hne1, hne2⟩
  · refine ⟨?_, ?_, ?_⟩
    · unfold getTicket
      rw [ht]
      dsimp only
      rw [if_pos ⟨hr, hne⟩]
    · unfold updateTicket
      rw [ht]
      dsimp only
      rw [if_pos ⟨hr, hne⟩]
    · unfold addMessage
      rw [ht]
      dsimp only
      rw [hu]
      dsimp only
      rw [if_pos ⟨hrole.trans hr, hne⟩]
  · refine ⟨?_, ?_, ?_⟩
    · unfold getTicket
      rw [ht]
      dsimp only
      rw [if_neg (fun hc => by rw [hr] at hc; cases hc.1)]
      rw [if_pos ⟨hr, hne1, hne2⟩]
    · unfold updateTicket
      rw [ht]
      dsimp only
      rw [if_neg (fun hc => by rw [hr] at hc; cases hc.1)]
      rw [if_pos ⟨hr, hne1, hne2⟩]
    · unfold addMessage
      rw [ht]
      dsimp only
      rw [hu]
      dsimp only
      rw [if_neg (fun hc => by rw [hrole.trans hr] at hc; cases hc.1)]
      rw [if_pos ⟨hrole.trans hr, hne1, hne2⟩]

/-- A ticket created by user 2 (not the client `wuser1`). -/
def wt3 : Ticket :=
  { id := 3, title := "screen", description := "screen flickers", categoryId := 1,
    subcategoryId := none, priority := TicketPriority.medium,
    status := TicketStatus.new, createdByUserId := 2, technicianId := none,
    assignedToUserId := none, dueDate := none, createdAt := 0, updatedAt := none }

/-- Store whose only ticket does not belong to client 1. -/
def wdbOther : Db :=
  { tickets := [wt3], technicians := [], users := [wuser1], messages := [] }

/-- C7 witness: client 1 probing someone else's ticket 3 gets the
not-found result from all three operations. -/
theorem c7_scope_notfound_witness :
    findTicket wdbOther 3 = some wt3 ∧ findUser wdbOther 1 = some wuser1 ∧
    wuser1.role = UserRole.client ∧ wt3.createdByUserId ≠ 1 ∧
    (getTicket wdbOther 3 1 UserRole.client = none ∧
     updateTicket wdbOther 3 1 UserRole.client wreqEmpty 4 = (wdbOther, none) ∧
     addMessage wdbOther 3 1 "hi" none 4 60 = (wdbOther, AddMessageResult.notFound)) :=
  ⟨by decide, by decide, by decide, by decide,
   c7_scope_notfound wdbOther 3 1 UserRole.client wt3 wuser1 wreqEmpty "hi" none 4 4 60
     (by decide) (by decide) (by decide) (Or.inl ⟨rfl, by decide⟩)⟩

/-- C8: on a `Resolved`/`Closed` ticket, `addMessage` requesting
`InProgress` succeeds for every actor who passes the access scope —
including the Client creator — appending the message (snapshot
`InProgress`) and setting the ticket's status to `InProgress`. -/
theorem c8_reopen (db : Db) (tid uid : Nat) (t : Ticket) (u : User) (m : String)
    (now mid : Nat)
    (ht : findTicket db tid = some t)
    (hu : findUser db uid = some u)
    (hclosed : t.status = TicketStatus.resolved ∨ t.status = TicketStatus.closed)
    (haccC : u.role = UserRole.client → t.createdByUserId = uid)
    (haccT : u.role = UserRole.technician → t.technicianId = some uid ∨ t.assignedToUserId = some uid) :
    (addMessage db tid uid m (some TicketStatus.inProgress) now mid).2 =
      AddMessageResult.ok { id := mid, ticketId := tid, authorUserId := uid, message := m, createdAt := now, status := some TicketStatus.inProgress } ∧
    findTicket (addMessage db tid uid m (some TicketStatus.inProgress) now mid).1 tid =
      some { t with status := TicketStatus.inProgress, updatedAt := some now } ∧
    (addMessage db tid uid m (some TicketStatus.inProgress) now mid).1.messages =
      db.messages ++ [{ id := mid, ticketId := tid, authorUserId := uid, message := m, createdAt := now, status := some TicketStatus.inProgress }] := by
  have happ : applyMessageStatus u t (some TicketStatus.inProgress)
      = { t with status := TicketStatus.inProgress } := by
    unfold applyMessageStatus
    dsimp only
    by_cases hcr : u.role = UserRole.client
    · rw [if_pos hcr, if_pos (Or.inl ⟨rfl, hclosed⟩)]
    · rw [if_neg hcr]
  unfold addMessage
  rw [ht]
  dsimp only
  rw [hu]
  dsimp only
  rw [if_neg (fun hc => hc.2 (haccC hc.1))]
  rw [if_neg (fun hc => by rcases haccT hc.1 with h | h; exact hc.2.1 h; exact hc.2.2 h)]
  rw [if_neg (fun hc => by rcases hc.2 with h | h <;> simp at h)]
  rw [happ]
  refine ⟨rfl, ?_, rfl⟩
  unfold findTicket
  dsimp only
  refine find?_replaceFirst ?_ ht
  have hti := ticket_id_of_findTicket ht
  exact hti

/-- The `wt1` ticket in `Closed` state. -/
def wt1c : Ticket :=
  { id := 1, title := "printer down", description := "the printer is down",
    categoryId := 1, subcategoryId := none, priority := TicketPriority.medium,
    status := TicketStatus.closed, createdByUserId := 1, technicianId := none,
    assignedToUserId := none, dueDate := none, createdAt := 0, updatedAt := none }

/-- Store with the closed ticket and its Client creator. -/
def wdbClosed : Db :=
  { tickets := [wt1c], technicians := [], users := [wuser1], messages := [] }

/-- C8 witness: the Client creator reopens their closed ticket. -/
theorem c8_reopen_witness :
    findTicket wdbClosed 1 = some wt1c ∧ findUser wdbClosed 1 = some wuser1 ∧
    (wt1c.status = TicketStatus.resolved ∨ wt1c.status = TicketStatus.closed) ∧
    ((addMessage wdbClosed 1 1 "back again" (some TicketStatus.inProgress) 5 70).2 =
       AddMessageResult.ok { id := 70, ticketId := 1, authorUserId := 1, message := "back again", createdAt := 5, status := some TicketStatus.inProgress } ∧
     findTicket (addMessage wdbClosed 1 1 "back again" (some TicketStatus.inProgress) 5 70).1 1 =
       some { wt1c with status := TicketStatus.inProgress, updatedAt := some 5 } ∧
     (addMessage wdbClosed 1 1 "back again" (some TicketStatus.inProgress) 5 70).1.messages =
       wdbClosed.messages ++ [{ id := 70, ticketId := 1, authorUserId := 1, message := "back again", createdAt := 5, status := some TicketStatus.inProgress }]) :=
  ⟨by decide, by decide, Or.inr rfl,
   c8_reopen wdbClosed 1 1 wt1c wuser1 "back again" 5 70 (by decide) (by decide)
     (Or.inr rfl) (fun _ => by decide) (fun hc => by cases hc)⟩

/-- The `wt1` ticket already in progress (for the C9 counterexample). -/
def wt9 : Ticket :=
  { id := 1, title := "printer down", description := "the printer is down",
    categoryId := 1, subcategoryId := none, priority := TicketPriority.medium,
    status := TicketStatus.inProgress, createdByUserId := 1, technicianId := none,
    assignedToUserId := none, dueDate := none, createdAt := 0, updatedAt := none }

/-- Store with the in-progress ticket and its Client creator. -/
def wdbIP : Db :=
  { tickets := [wt9], technicians := [], users := [wuser1], messages := [] }

/-- C9 (counterexample): the Client requests status `New` on their own
`InProgress` ticket; the change is silently ignored (the ticket stays
`InProgress`), yet the stored message snapshot records the ignored
requested value `New` rather than the ticket's actual status. -/
theorem c9_counterexample :
    (addMessage wdbIP 1 1 "status note" (some TicketStatus.new) 7 50).2 =
      AddMessageResult.ok { id := 50, ticketId := 1, authorUserId := 1, message := "status note", createdAt := 7, status := some TicketStatus.new } ∧
    findTicket (addMessage wdbIP 1 1 "status note" (some TicketStatus.new) 7 50).1 1 =
      some { wt9 with updatedAt := some 7 } ∧
    (some TicketStatus.new : Option TicketStatus) ≠ some TicketStatus.inProgress := by
  refine ⟨by decide, by decide, by decide⟩

/-- C9 (amended): the snapshot stored on a successfully created message
equals the requested status whenever one was provided — even when the
permission rules silently ignored the change — and equals the ticket's
(unchanged) status when no status was requested. -/
theorem c9_snapshot_amended (db : Db) (tid uid : Nat) (m : String)
    (st : Option TicketStatus) (now mid : Nat) (t : Ticket) (db' : Db) (msg : TicketMessage)
    (ht : findTicket db tid = some t)
    (h : addMessage db tid uid m st now mid = (db', AddMessageResult.ok msg)) :
    msg.status = some (st.getD t.status) := by
  unfold addMessage at h
  rw [ht] at h
  dsimp only at h
  cases hfu : findUser db uid with
  | none => rw [hfu] at h; dsimp only at h; simp at h
  | some author =>
    rw [hfu] at h
    dsimp only at h
    split at h
    · simp at h
    · split at h
      · simp at h
      · split at h
        · simp at h
        · rw [Prod.mk.injEq] at h
          have hmsg := AddMessageResult.ok.inj h.2
          rw [← hmsg]
          cases st <;> rfl

/-- C9 amended witness: the counterexample call itself satisfies the
amended snapshot rule (requested `New` is what gets recorded). -/
theorem c9_snapshot_amended_witness :
    findTicket wdbIP 1 = some wt9 ∧
    addMessage wdbIP 1 1 "status note" (some TicketStatus.new) 7 50 =
      ((addMessage wdbIP 1 1 "status note" (some TicketStatus.new) 7 50).1,
       AddMessageResult.ok { id := 50, ticketId := 1, authorUserId := 1, message := "status note", createdAt := 7, status := some TicketStatus.new }) ∧
    ({ id := 50, ticketId := 1, authorUserId := 1, message := "status note", createdAt := 7, status := some TicketStatus.new } : TicketMessage).status =
      some ((some TicketStatus.new).getD wt9.status) :=
  ⟨by decide, by decide,
   c9_snapshot_amended wdbIP 1 1 "status note" (some TicketStatus.new) 7 50 wt9
     (addMessage wdbIP 1 1 "status note" (some TicketStatus.new) 7 50).1
     { id := 50, ticketId := 1, authorUserId := 1, message := "status note", createdAt := 7, status := some TicketStatus.new }
     (by decide) (by decide)⟩

/-- C10: an Admin `updateTicket` on an existing ticket stores the patch's
due date unconditionally — a patch omitting it clears the stored due date
to null — while for any non-Admin role `updateTicket` never changes any
ticket's due date. -/
theorem c10_admin_duedate (db : Db) (tid uid : Nat) (req : TicketUpdateRequest) (now : Nat)
    (t : Ticket) (role : UserRole) (tid2 uid2 : Nat) (req2 : TicketUpdateRequest) (now2 : Nat)
    (ht : findTicket db tid = some t)
    (hrole : role ≠ UserRole.admin) :
    (updateTicket db tid uid UserRole.admin req now =
       ({ db with tickets := replaceFirst db.tickets (applyUpdate t UserRole.admin req now) }, some (applyUpdate t UserRole.admin req now)) ∧
     (applyUpdate t UserRole.admin req now).dueDate = req.dueDate) ∧
    (updateTicket db tid2 uid2 role req2 now2).1.tickets.map (fun x => (x.id, x.dueDate)) =
      db.tickets.map (fun x => (x.id, x.dueDate)) := by
  constructor
  · constructor
    · unfold updateTicket
      rw [ht]
      dsimp only
      rw [if_neg (fun hc => by cases hc.1)]
      rw [if_neg (fun hc => by cases hc.1)]
    · exact applyUpdate_dueDate_admin t req now
  · unfold updateTicket
    cases hft2 : findTicket db tid2 with
    | none => rfl
    | some ticket2 =>
      dsimp only
      split
      · rfl
      · split
        · rfl
        · dsimp only
          have hf2 : db.tickets.find? (fun x => x.id == tid2) = some ticket2 := hft2
          refine map_replaceFirst _ ?_ hf2 ?_
          · have h1 := applyUpdate_id ticket2 role req2 now2
            have h2 := ticket_id_of_findTicket hft2
            exact h1.trans h2
          · rw [Prod.mk.injEq]
            exact ⟨applyUpdate_id ticket2 role req2 now2,
                   applyUpdate_dueDate_nonadmin ticket2 role req2 now2 hrole⟩

/-- An admin patch that only sets the due date. -/
def wreqDue : TicketUpdateRequest :=
  { description := none, priority := none, status := none,
    assignedToUserId := none, dueDate := some 9 }

/-- C10 witness: the Admin patch overwrites the due date on `wt1`, and a
Client update with the same patch leaves every due date untouched. -/
theorem c10_admin_duedate_witness :
    findTicket wdb 1 = some wt1 ∧ UserRole.client ≠ UserRole.admin ∧
    ((updateTicket wdb 1 3 UserRole.admin wreqDue 4 =
        ({ wdb with tickets := replaceFirst wdb.tickets (applyUpdate wt1 UserRole.admin wreqDue 4) }, some (applyUpdate wt1 UserRole.admin wreqDue 4)) ∧
      (applyUpdate wt1 UserRole.admin wreqDue 4).dueDate = wreqDue.dueDate) ∧
     (updateTicket wdb 1 1 UserRole.client wreqDue 4).1.tickets.map (fun x => (x.id, x.dueDate)) =
       wdb.tickets.map (fun x => (x.id, x.dueDate))) :=
  ⟨by decide, by decide,
   c10_admin_duedate wdb 1 3 wreqDue 4 wt1 UserRole.client 1 1 wreqDue 4
     (by decide) (by decide)⟩

end Ticketing
